import Mathlib

/-!
Verification of the schema bridge of an express backend template:
the Zod-to-OpenAPI type-tree converter (`src/utils/zodToOpenAPI.js`) and
the route-to-operation aggregator (`src/utils/routeDoc.js`).

JavaScript objects are modelled as association lists of string keys and
`JsonValue` values, with JS property assignment (`obj[k] = v`) modelled by
`setKey` (overwrite in place when the key exists, append otherwise).
JS `undefined` stored in an object property is modelled as `JsonValue.null`.
JS strings are modelled as `String` with character-level operations where
the code uses `slice` / `charAt` / `split` / case conversion.
-/

/-- A JSON-like value: the common codomain for wire-schema nodes, literal
values, and response objects produced by the two source files. -/
inductive JsonValue where
  | null : JsonValue
  | bool : Bool → JsonValue
  | num : Int → JsonValue
  | str : String → JsonValue
  | arr : List JsonValue → JsonValue
  | obj : List (String × JsonValue) → JsonValue

/-- JS property assignment `target[k] = v`: overwrite the first binding of
`k` in place, or append a fresh binding at the end. -/
def setKey {α : Type} : List (String × α) → String → α → List (String × α)
  | [], k, v => [(k, v)]
  | (k', v') :: rest, k, v =>
    if k' = k then (k', v) :: rest else (k', v') :: setKey rest k v

/-- JS property read `target[k]`, `none` when the key is absent. -/
def lookupKey {α : Type} : List (String × α) → String → Option α
  | [], _ => none
  | (k', v) :: rest, k => if k' = k then some v else lookupKey rest k

/-- JS `Object.assign(target, source)`: copy every binding of `source` onto
`target`, in order. -/
def objAssign {α : Type} (target source : List (String × α)) : List (String × α) :=
  source.foldl (fun acc kv => setKey acc kv.1 kv.2) target

/-- JS `String.prototype.toLowerCase` on the character sequence. -/
def jsToLower (s : String) : String := ⟨s.data.map Char.toLower⟩

/-- JS `String.prototype.toUpperCase` on the character sequence. -/
def jsToUpper (s : String) : String := ⟨s.data.map Char.toUpper⟩

/-- JS `split(sep)` for a single-character separator, on character lists:
`splitChar '/' "a/b".data = [['a'], ['b']]`, and the empty string yields
one empty field, exactly as in JS. -/
def splitChar (sep : Char) : List Char → List (List Char)
  | [] => [[]]
  | c :: rest =>
    match splitChar sep rest with
    | s :: ss => if c = sep then [] :: s :: ss else (c :: s) :: ss
    | [] => [[]]

/-- A sub-constraint of a Zod string schema (`_def.checks` entry). The
`other` constructor stands for any check kind the converter's `switch`
does not mention (those fall through with no effect). -/
inductive StringCheck where
  | min : Int → StringCheck
  | max : Int → StringCheck
  | length : Int → StringCheck
  | email | url | uuid | cuid | cuid2 | ulid : StringCheck
  | regex : String → StringCheck
  | datetime | date | time : StringCheck
  | ip : Option String → StringCheck
  | other : String → StringCheck

/-- A sub-constraint of a Zod number schema (`_def.checks` entry); for
`min`/`max` the second field models `check.inclusive`, which the code
compares against `false` with strict equality (`none` = field absent). -/
inductive NumberCheck where
  | min : Int → Option Bool → NumberCheck
  | max : Int → Option Bool → NumberCheck
  | int : NumberCheck
  | multipleOf : Int → NumberCheck
  | other : String → NumberCheck

/-- The input type grammar consumed by `ZodToOpenAPI.convert`: one
constructor per `_def.typeName` the `switch` recognises, each carrying the
`_def.description` field first, plus
`noDef` for an input object without a `_def` (the converter's guard), and
`unrecognized` for a node whose `_def.typeName` is any string outside the
enumerated set (the `switch`'s `default` arm). -/
inductive TypeNode where
  | noDef : TypeNode
  | zodString : Option String → List StringCheck → TypeNode
  | zodNumber : Option String → List NumberCheck → TypeNode
  | zodInt : Option String → List NumberCheck → TypeNode
  | zodBoolean : Option String → TypeNode
  | zodDate : Option String → TypeNode
  | zodEnum : Option String → List String → TypeNode
  | zodNativeEnum : Option String → List (String × JsonValue) → TypeNode
  | zodLiteral : Option String → JsonValue → TypeNode
  | zodObject : Option String → String → List (String × TypeNode) → TypeNode
  | zodArray : Option String → TypeNode → Option Int → Option Int → TypeNode
  | zodRecord : Option String → TypeNode → TypeNode
  | zodOptional : Option String → TypeNode → TypeNode
  | zodNullable : Option String → TypeNode → TypeNode
  | zodDefault : Option String → TypeNode → Option JsonValue → TypeNode
  | zodUnion : Option String → List TypeNode → TypeNode
  | zodIntersection : Option String → TypeNode → TypeNode → TypeNode
  | zodEffects : Option String → TypeNode → TypeNode
  | zodAny : Option String → TypeNode
  | zodUnknown : Option String → TypeNode
  | zodVoid : Option String → TypeNode
  | zodUndefined : Option String → TypeNode
  | unrecognized : Option String → String → TypeNode

/-- The `_def.description` field of a node (`none` for the def-less input,
whose description is never read by the source). -/
def descrOf : TypeNode → Option String
  | .noDef => none
  | .zodString d _ => d
  | .zodNumber d _ => d
  | .zodInt d _ => d
  | .zodBoolean d => d
  | .zodDate d => d
  | .zodEnum d _ => d
  | .zodNativeEnum d _ => d
  | .zodLiteral d _ => d
  | .zodObject d _ _ => d
  | .zodArray d _ _ _ => d
  | .zodRecord d _ => d
  | .zodOptional d _ => d
  | .zodNullable d _ => d
  | .zodDefault d _ _ => d
  | .zodUnion d _ => d
  | .zodIntersection d _ _ => d
  | .zodEffects d _ => d
  | .zodAny d => d
  | .zodUnknown d => d
  | .zodVoid d => d
  | .zodUndefined d => d
  | .unrecognized d _ => d

/-- Tail of `ZodToOpenAPI.convert`: `if (description) schema.description =
description` — a falsy (absent or empty) description adds nothing. -/
def withDescr (d : Option String) (schema : List (String × JsonValue)) :
    List (String × JsonValue) :=
  match d with
  | some s => if s = "" then schema else setKey schema "description" (JsonValue.str s)
  | none => schema

/-- Whether the input object carries a `_def` (used by the response-hint
branch `responseHint._def` of `generateResponseSchema`). -/
def hasDef : TypeNode → Bool
  | .noDef => false
  | _ => true

/-- Model of `ZodToOpenAPI.isOptional`: inspects only the outermost
`_def?.typeName` of the given node. -/
def isOptional : TypeNode → Bool
  | .zodOptional _ _ => true
  | .zodNullable _ _ => true
  | .zodDefault _ _ _ => true
  | _ => false

/-- Model of `ZodToOpenAPI.convertString`: start from `{type:'string'}` and walk the
checks left to right, each assigning one wire field (last write wins). -/
def convertString (checks : List StringCheck) : List (String × JsonValue) :=
  checks.foldl (fun schema check =>
    match check with
    | .min v => setKey schema "minLength" (JsonValue.num v)
    | .max v => setKey schema "maxLength" (JsonValue.num v)
    | .length v => setKey (setKey schema "minLength" (JsonValue.num v)) "maxLength" (JsonValue.num v)
    | .email => setKey schema "format" (JsonValue.str "email")
    | .url => setKey schema "format" (JsonValue.str "uri")
    | .uuid => setKey schema "format" (JsonValue.str "uuid")
    | .cuid => setKey schema "format" (JsonValue.str "cuid")
    | .cuid2 => setKey schema "format" (JsonValue.str "cuid")
    | .ulid => setKey schema "format" (JsonValue.str "ulid")
    | .regex src => setKey schema "pattern" (JsonValue.str src)
    | .datetime => setKey schema "format" (JsonValue.str "date-time")
    | .date => setKey schema "format" (JsonValue.str "date")
    | .time => setKey schema "format" (JsonValue.str "time")
    | .ip version =>
      setKey schema "format" (JsonValue.str
        (if version = some "v4" then "ipv4" else if version = some "v6" then "ipv6" else "ip"))
    | .other _ => schema)
    [("type", JsonValue.str "string")]

/-- Model of `ZodToOpenAPI.getNumberConstraints`: accumulate constraint fields from
the checks (`inclusive === false` selects the exclusive bound; an `int`
check writes `type:'integer'`). -/
def getNumberConstraints (checks : List NumberCheck) : List (String × JsonValue) :=
  checks.foldl (fun constraints check =>
    match check with
    | .min v inclusive =>
      if inclusive = some false then setKey constraints "exclusiveMinimum" (JsonValue.num v)
      else setKey constraints "minimum" (JsonValue.num v)
    | .max v inclusive =>
      if inclusive = some false then setKey constraints "exclusiveMaximum" (JsonValue.num v)
      else setKey constraints "maximum" (JsonValue.num v)
    | .int => setKey constraints "type" (JsonValue.str "integer")
    | .multipleOf v => setKey constraints "multipleOf" (JsonValue.num v)
    | .other _ => constraints) []

/-- Model of `ZodToOpenAPI.convertNumber`: `{ type:'number', ...constraints }` — the
spread copies the constraint fields onto the base object, overwriting. -/
def convertNumber (checks : List NumberCheck) : List (String × JsonValue) :=
  objAssign [("type", JsonValue.str "number")] (getNumberConstraints checks)

/-- JS `typeof` for the values a `ZodLiteral` can carry (`typeof null` is
`'object'`, like any other non-primitive). -/
def jsTypeof : JsonValue → String
  | .str _ => "string"
  | .num _ => "number"
  | .bool _ => "boolean"
  | .null => "object"
  | .arr _ => "object"
  | .obj _ => "object"

/-- The `required.push(key)` accumulation of `ZodToOpenAPI.convertObject`:
keys whose value fails `isOptional`, in declaration order. -/
def requiredOf : List (String × TypeNode) → List String
  | [] => []
  | (k, v) :: rest => if isOptional v then requiredOf rest else k :: requiredOf rest

/-- Assembly tail of `ZodToOpenAPI.convertObject`: the
`{type:'object', properties}` base, the conditional `required` field, and
the `unknownKeys` policy handling. -/
def objectSchema (unknownKeys : String) (properties : List (String × JsonValue))
    (required : List String) : List (String × JsonValue) :=
  let schema := [("type", JsonValue.str "object"), ("properties", JsonValue.obj properties)]
  let schema :=
    if required.length > 0 then setKey schema "required" (JsonValue.arr (required.map JsonValue.str))
    else schema
  if unknownKeys = "passthrough" then setKey schema "additionalProperties" (JsonValue.bool true)
  else if unknownKeys = "strict" then setKey schema "additionalProperties" (JsonValue.bool false)
  else schema

/-- The `minItems`/`maxItems` tail of the `ZodArray` arm: each bound copied
only when the source declares it. -/
def arrayBounds (base : List (String × JsonValue)) (minLength maxLength : Option Int) :
    List (String × JsonValue) :=
  let schema := match minLength with
    | some v => setKey base "minItems" (JsonValue.num v)
    | none => base
  match maxLength with
  | some v => setKey schema "maxItems" (JsonValue.num v)
  | none => schema

mutual
/-- Model of `ZodToOpenAPI.convert`, one arm per `typeName` of the source `switch`.
The source computes the arm's object first and then runs the final
`if (description) schema.description = description`; here that uniform
tail (`withDescr`) is applied inside each arm, which builds the identical
object. An input without `_def` returns `{type:'object'}` before the
description is ever read, exactly as the source's early guard does. -/
def convert : TypeNode → List (String × JsonValue)
  | .noDef => [("type", JsonValue.str "object")]
  | .zodString d checks => withDescr d (convertString checks)
  | .zodNumber d checks => withDescr d (convertNumber checks)
  | .zodInt d checks =>
    withDescr d (objAssign [("type", JsonValue.str "integer")] (getNumberConstraints checks))
  | .zodBoolean d => withDescr d [("type", JsonValue.str "boolean")]
  | .zodDate d => withDescr d [("type", JsonValue.str "string"), ("format", JsonValue.str "date-time")]
  | .zodEnum d values =>
    withDescr d [("type", JsonValue.str "string"), ("enum", JsonValue.arr (values.map JsonValue.str))]
  | .zodNativeEnum d mapping =>
    withDescr d [("type", JsonValue.str "string"), ("enum", JsonValue.arr (mapping.map Prod.snd))]
  | .zodLiteral d v =>
    withDescr d [("type", JsonValue.str (jsTypeof v)), ("enum", JsonValue.arr [v])]
  | .zodObject d unknownKeys shape =>
    withDescr d (objectSchema unknownKeys (convertProps shape) (requiredOf shape))
  | .zodArray d elem minLength maxLength =>
    withDescr d (arrayBounds
      [("type", JsonValue.str "array"), ("items", JsonValue.obj (convert elem))] minLength maxLength)
  | .zodRecord d valueType =>
    withDescr d [("type", JsonValue.str "object"),
      ("additionalProperties", JsonValue.obj (convert valueType))]
  | .zodOptional d innerType => withDescr d (convert innerType)
  | .zodNullable d innerType => withDescr d (setKey (convert innerType) "nullable" (JsonValue.bool true))
  | .zodDefault d innerType defaultValue =>
    withDescr d (match defaultValue with
      | some v => setKey (convert innerType) "default" v
      | none => convert innerType)
  | .zodUnion d options => withDescr d [("oneOf", JsonValue.arr (convertList options))]
  | .zodIntersection d left right =>
    withDescr d [("allOf", JsonValue.arr [JsonValue.obj (convert left), JsonValue.obj (convert right)])]
  | .zodEffects d schema => withDescr d (convert schema)
  | .zodAny d => withDescr d []
  | .zodUnknown d => withDescr d []
  | .zodVoid d => withDescr d [("type", JsonValue.str "null")]
  | .zodUndefined d => withDescr d [("type", JsonValue.str "null")]
  | .unrecognized d _ => withDescr d [("type", JsonValue.str "string")]

/-- The `properties[key] = this.convert(value)` loop of `convertObject`,
in declaration order. -/
def convertProps : List (String × TypeNode) → List (String × JsonValue)
  | [] => []
  | (k, v) :: rest => (k, JsonValue.obj (convert v)) :: convertProps rest

/-- The `options.map((opt) => this.convert(opt))` of the `ZodUnion` arm. -/
def convertList : List TypeNode → List JsonValue
  | [] => []
  | o :: rest => JsonValue.obj (convert o) :: convertList rest
end

/-- Model of `ZodToOpenAPI.convert` at its outer call boundary, where the argument
may also be absent (`!zodSchema` guard): absent input falls back to the
unconstrained object node. -/
def convertInput : Option TypeNode → List (String × JsonValue)
  | none => [("type", JsonValue.str "object")]
  | some s => convert s

/-- The response hint of a route (`response` config key when truthy): a
Zod-style object (which `generateResponseSchema` probes for `_def`), or a
truthy non-object documentation placeholder. -/
inductive ResponseHint where
  | schema : TypeNode → ResponseHint
  | nonObject : ResponseHint

/-- The config object accepted by `createRoute` (`routeDoc.js`), with the
same destructuring defaults. -/
structure RouteConfig where
  summary : Option String := none
  description : Option String := none
  tags : List String := []
  auth : Bool := false
  body : Option TypeNode := none
  query : Option TypeNode := none
  params : Option TypeNode := none
  response : Option ResponseHint := none
  responses : List (String × JsonValue) := []

/-- The route record returned by `createRoute`. -/
structure Route where
  method : String
  path : String
  summary : Option String
  description : Option String
  tags : List String
  auth : Bool
  bodySchema : Option TypeNode
  querySchema : Option TypeNode
  paramsSchema : Option TypeNode
  responseSchema : Option ResponseHint
  customResponses : List (String × JsonValue)

/-- JS `a || b` on possibly-undefined strings: an absent or empty `a`
falls through to `b`. -/
def jsOr (a b : Option String) : Option String :=
  match a with
  | some s => if s = "" then b else some s
  | none => b

/-- JS `a || dflt` where the fallback is a known string. -/
def jsOrDefault (a : Option String) (dflt : String) : String :=
  match a with
  | some s => if s = "" then dflt else s
  | none => dflt

/-- Model of `createRoute` of `routeDoc.js`: lowercases the method and derives the
description as `description || summary`. -/
def createRoute (method path : String) (config : RouteConfig) : Route where
  method := jsToLower method
  path := path
  summary := config.summary
  description := jsOr config.description config.summary
  tags := config.tags
  auth := config.auth
  bodySchema := config.body
  querySchema := config.query
  paramsSchema := config.params
  responseSchema := config.response
  customResponses := config.responses

namespace api

/-- Model of `api.get` of `routeDoc.js`. -/
def get (path : String) (config : RouteConfig) : Route := createRoute "GET" path config

/-- Model of `api.post` of `routeDoc.js`. -/
def post (path : String) (config : RouteConfig) : Route := createRoute "POST" path config

/-- Model of `api.put` of `routeDoc.js`. -/
def put (path : String) (config : RouteConfig) : Route := createRoute "PUT" path config

/-- Model of `api.patch` of `routeDoc.js`. -/
def patch (path : String) (config : RouteConfig) : Route := createRoute "PATCH" path config

/-- Model of `api.delete` of `routeDoc.js`. -/
def delete (path : String) (config : RouteConfig) : Route := createRoute "DELETE" path config

end api

/-- JS `p.startsWith(c)` for a one-character prefix, on the character
sequence. -/
def startsWithChar (c : Char) (s : String) : Bool :=
  match s.data with
  | [] => false
  | c0 :: _ => c0 = c

/-- One path segment of `generateOperationId`: a segment starting with
`\x7b` becomes `'By' + p.slice(1,-1).charAt(0).toUpperCase() + p.slice(2,-1)`,
any other becomes `p.charAt(0).toUpperCase() + p.slice(1)`; JS `slice`
with end `-1` drops the last character. -/
def segmentName (p : String) : String :=
  if startsWithChar '\x7b' p then
    "By" ++ (match ((p.data.drop 1).dropLast : List Char) with
      | [] => ("" : String)
      | c :: _ => ⟨[c.toUpper]⟩)
      ++ ⟨(p.data.drop 2).dropLast⟩
  else
    (match p.data with
      | [] => ("" : String)
      | c :: _ => ⟨[c.toUpper]⟩) ++ ⟨p.data.drop 1⟩

/-- Model of `generateOperationId` of `routeDoc.js`: split the path on `/`, drop
empty segments (`filter(Boolean)`), transform each segment, join, and
prepend the lowercased method. -/
def generateOperationId (method path : String) : String :=
  let parts := ((splitChar '/' path.data).map (fun l => (⟨l⟩ : String))).filter (fun p => p ≠ "")
  let name := String.join (parts.map segmentName)
  jsToLower method ++ name

/-- The `required` test of one generated parameter:
`openApiSchema.required?.includes(name) || location === 'path'`. -/
def requiredIncludes (fields : List (String × JsonValue)) (name : String) : Bool :=
  match lookupKey fields "required" with
  | some (JsonValue.arr xs) =>
    xs.any (fun j => match j with | JsonValue.str s => s = name | _ => false)
  | _ => false

/-- The `description: schema.description || undefined` field of one
generated parameter (undefined modelled as `JsonValue.null`). -/
def paramDescr (schema : JsonValue) : JsonValue :=
  match schema with
  | JsonValue.obj fields =>
    (match lookupKey fields "description" with
      | some (JsonValue.str d) => if d = "" then JsonValue.null else JsonValue.str d
      | _ => JsonValue.null)
  | _ => JsonValue.null

/-- Model of `generateParameters` of `routeDoc.js`: convert the schema once; when
the wire node exposes `properties`, emit one parameter per property, else
none. -/
def generateParameters (zodSchema : TypeNode) (location : String) : List JsonValue :=
  let openApiSchema := convert zodSchema
  match lookupKey openApiSchema "properties" with
  | some (JsonValue.obj props) =>
    props.map (fun kv => JsonValue.obj
      [("name", JsonValue.str kv.1),
       ("in", JsonValue.str location),
       ("required", JsonValue.bool (requiredIncludes openApiSchema kv.1 || location == "path")),
       ("schema", kv.2),
       ("description", paramDescr kv.2)])
  | _ => []

/-- The parameter accumulation of `generateOperation`: path parameters
first, then query parameters, each only when that schema is present. -/
def routeParameters (route : Route) : List JsonValue :=
  (match route.paramsSchema with
    | some s => generateParameters s "path"
    | none => []) ++
  (match route.querySchema with
    | some s => generateParameters s "query"
    | none => [])

/-- Model of `generateResponseSchema` of `routeDoc.js`: a hint exposing `_def` is
enveloped with its conversion as `data`; any other hint yields the
documentation-only envelope with an unconstrained `data` object. -/
def generateResponseSchema (responseHint : ResponseHint) : JsonValue :=
  match responseHint with
  | .schema s =>
    if hasDef s then
      JsonValue.obj [("type", JsonValue.str "object"),
        ("properties", JsonValue.obj
          [("success", JsonValue.obj [("type", JsonValue.str "boolean"), ("example", JsonValue.bool true)]),
           ("data", JsonValue.obj (convert s))])]
    else
      JsonValue.obj [("type", JsonValue.str "object"),
        ("properties", JsonValue.obj
          [("success", JsonValue.obj [("type", JsonValue.str "boolean"), ("example", JsonValue.bool true)]),
           ("data", JsonValue.obj [("type", JsonValue.str "object")])])]
  | .nonObject =>
    JsonValue.obj [("type", JsonValue.str "object"),
      ("properties", JsonValue.obj
        [("success", JsonValue.obj [("type", JsonValue.str "boolean"), ("example", JsonValue.bool true)]),
         ("data", JsonValue.obj [("type", JsonValue.str "object")])])]

/-- The success-code selection of `generateResponses`:
`method === 'post' ? '201' : method === 'delete' ? '204' : '200'`. -/
def successCodeOf (route : Route) : String :=
  if route.method = "post" then "201" else if route.method = "delete" then "204" else "200"

/-- Model of `generateResponses` of `routeDoc.js` up to (excluding) the final
`Object.assign` of the caller overrides: success entry, then the
conditional 401/403, 422, 404 entries, then the unconditional 500. -/
def generateResponsesBase (route : Route) : List (String × JsonValue) :=
  let successCode := successCodeOf route
  let responses : List (String × JsonValue) :=
    if route.method = "delete" && route.responseSchema.isNone then
      setKey [] successCode (JsonValue.obj [("description", JsonValue.str "Successfully deleted")])
    else
      setKey [] successCode (JsonValue.obj
        [("description", JsonValue.str "Successful operation"),
         ("content", JsonValue.obj [("application/json", JsonValue.obj
           [("schema", match route.responseSchema with
             | some h => generateResponseSchema h
             | none => JsonValue.obj [("$ref", JsonValue.str "#/components/schemas/Success")])])])])
  let responses :=
    if route.auth then
      setKey (setKey responses "401"
          (JsonValue.obj [("$ref", JsonValue.str "#/components/responses/UnauthorizedError")]))
        "403" (JsonValue.obj [("$ref", JsonValue.str "#/components/responses/ForbiddenError")])
    else responses
  let responses :=
    if route.bodySchema.isSome then
      setKey responses "422" (JsonValue.obj [("$ref", JsonValue.str "#/components/responses/ValidationError")])
    else responses
  let responses :=
    if route.paramsSchema.isSome then
      setKey responses "404" (JsonValue.obj [("$ref", JsonValue.str "#/components/responses/NotFoundError")])
    else responses
  setKey responses "500" (JsonValue.obj [("$ref", JsonValue.str "#/components/responses/ServerError")])

/-- Model of `generateResponses` of `routeDoc.js`: the computed entries with the
caller's `customResponses` copied over them (`Object.assign`). -/
def generateResponses (route : Route) : List (String × JsonValue) :=
  objAssign (generateResponsesBase route) route.customResponses

/-- The initial object literal of `generateOperation`: summary (with the
`route.summary || '<METHOD> <path>'` default), description (the route's
description field as is — `undefined` stays undefined), tags (with the
`['Default']` fallback), and the operation identifier. -/
def operationBase (route : Route) : List (String × JsonValue) :=
  [("summary", JsonValue.str (jsOrDefault route.summary (jsToUpper route.method ++ " " ++ route.path))),
   ("description", match route.description with
     | some d => JsonValue.str d
     | none => JsonValue.null),
   ("tags", JsonValue.arr ((if route.tags.length > 0 then route.tags else ["Default"]).map JsonValue.str)),
   ("operationId", JsonValue.str (generateOperationId route.method route.path))]

/-- Model of `generateOperation` of `routeDoc.js`. -/
def generateOperation (route : Route) : List (String × JsonValue) :=
  let operation : List (String × JsonValue) := operationBase route
  let operation :=
    if route.auth then
      setKey operation "security" (JsonValue.arr [JsonValue.obj [("BearerAuth", JsonValue.arr [])]])
    else operation
  let parameters := routeParameters route
  let operation :=
    if parameters.length > 0 then setKey operation "parameters" (JsonValue.arr parameters)
    else operation
  let operation :=
    match route.bodySchema with
    | some b =>
      if ["post", "put", "patch"].contains route.method then
        setKey operation "requestBody" (JsonValue.obj
          [("required", JsonValue.bool true),
           ("content", JsonValue.obj [("application/json", JsonValue.obj
             [("schema", JsonValue.obj (convert b))])])])
      else operation
    | none => operation
  setKey operation "responses" (JsonValue.obj (generateResponses route))

/-- The loop body of `generateDocs`: ensure the path's inner object exists,
then bind the method to the route's operation. -/
def docStep (paths : List (String × List (String × JsonValue))) (route : Route) :
    List (String × List (String × JsonValue)) :=
  let inner := (lookupKey paths route.path).getD []
  setKey paths route.path (setKey inner route.method (JsonValue.obj (generateOperation route)))

/-- Model of `generateDocs` of `routeDoc.js`: fold every route into the
path-to-method-to-operation mapping. -/
def generateDocs (routes : List Route) : List (String × List (String × JsonValue)) :=
  routes.foldl docStep []

/-- Read the operation bound to a (path, method) pair in a generated
paths mapping. -/
def lookupOp (paths : List (String × List (String × JsonValue))) (p m : String) : Option JsonValue :=
  (lookupKey paths p).bind (fun inner => lookupKey inner m)

/-- Claim-side reading of C1: the property names whose own node's
outermost discriminant is not `optional`, `nullable`, or `default` (no
nested wrapper is inspected), in declaration order. -/
def claimRequiredNames (shape : List (String × TypeNode)) : List String :=
  (shape.filter (fun p =>
    match p.2 with
    | .zodOptional _ _ => false
    | .zodNullable _ _ => false
    | .zodDefault _ _ _ => false
    | _ => true)).map Prod.fst

/-- Claim-side: capitalize a segment (uppercase its first character). -/
def claimCapitalize (s : String) : String :=
  ⟨match s.data with
   | [] => []
   | c :: cs => c.toUpper :: cs⟩

/-- Claim-side reading of C7's path transform: a placeholder segment
(brace-delimited name) becomes `By` followed by the capitalized inner
name; any other segment is capitalized. -/
def claimSegment (p : String) : String :=
  if startsWithChar '\x7b' p then "By" ++ claimCapitalize ⟨(p.data.drop 1).dropLast⟩
  else claimCapitalize p

/-- Claim-side reading of C5's envelope: an object with a boolean
`success` field and a `data` field holding the converted hint when the
hint is a type node (one with a `_def`), an unconstrained object
otherwise. -/
def claimEnvelope (h : ResponseHint) : JsonValue :=
  JsonValue.obj [("type", JsonValue.str "object"),
    ("properties", JsonValue.obj
      [("success", JsonValue.obj [("type", JsonValue.str "boolean"), ("example", JsonValue.bool true)]),
       ("data", match h with
         | ResponseHint.schema s =>
           if hasDef s then JsonValue.obj (convert s) else JsonValue.obj [("type", JsonValue.str "object")]
         | ResponseHint.nonObject => JsonValue.obj [("type", JsonValue.str "object")])])]

/-- Claim-side reading of C10: the route appearing latest in the list
whose path and method both match the given pair, if any. -/
def lastMatching : List Route → String → String → Option Route
  | [], _, _ => none
  | r :: rest, p, m =>
    match lastMatching rest p m with
    | some r' => some r'
    | none => if r.path = p ∧ r.method = m then some r else none

theorem lookupKey_setKey_self {α : Type} (l : List (String × α)) (k : String) (v : α) :
    lookupKey (setKey l k v) k = some v := by
  induction l with
  | nil => simp [setKey, lookupKey]
  | cons kv rest ih =>
    obtain ⟨k', v'⟩ := kv
    by_cases h : k' = k <;> simp [setKey, lookupKey, h, ih]

theorem lookupKey_setKey_ne {α : Type} (l : List (String × α)) {k k' : String} (v : α)
    (h : k' ≠ k) : lookupKey (setKey l k v) k' = lookupKey l k' := by
  have h' : k ≠ k' := Ne.symm h
  induction l with
  | nil => simp [setKey, lookupKey, h']
  | cons kv rest ih =>
    obtain ⟨k0, v0⟩ := kv
    by_cases h0 : k0 = k
    · subst h0
      simp [setKey, lookupKey, h']
    · by_cases h1 : k0 = k' <;> simp [setKey, lookupKey, h, h0, h1, ih]

theorem lookupKey_eq_none {α : Type} (l : List (String × α)) (k : String)
    (h : k ∉ l.map Prod.fst) : lookupKey l k = none := by
  induction l with
  | nil => rfl
  | cons kv rest ih =>
    simp only [List.map_cons, List.mem_cons] at h
    push_neg at h
    have h1 : kv.1 ≠ k := Ne.symm h.1
    obtain ⟨k0, v0⟩ := kv
    simp only at h1
    simp [lookupKey, h1, ih h.2]

theorem setKey_not_mem {α : Type} (l : List (String × α)) (k : String) (v : α)
    (h : k ∉ l.map Prod.fst) : setKey l k v = l ++ [(k, v)] := by
  induction l with
  | nil => rfl
  | cons kv rest ih =>
    simp only [List.map_cons, List.mem_cons] at h
    push_neg at h
    have h1 : kv.1 ≠ k := Ne.symm h.1
    obtain ⟨k0, v0⟩ := kv
    simp only at h1
    simp [setKey, h1, ih h.2]

theorem mem_keys_setKey {α : Type} (l : List (String × α)) (k : String) (v : α) :
    k ∈ (setKey l k v).map Prod.fst := by
  induction l with
  | nil => simp [setKey]
  | cons kv rest ih =>
    obtain ⟨k0, v0⟩ := kv
    by_cases h : k0 = k <;> simp [setKey, h, ih]

theorem lookupKey_objAssign {α : Type} (target source : List (String × α)) (k : String)
    (hnd : (source.map Prod.fst).Nodup) :
    lookupKey (objAssign target source) k =
      match lookupKey source k with
      | some v => some v
      | none => lookupKey target k := by
  induction source generalizing target with
  | nil => simp [objAssign, lookupKey]
  | cons kv rest ih =>
    obtain ⟨k0, v0⟩ := kv
    simp only [List.map_cons, List.nodup_cons] at hnd
    have step : objAssign target ((k0, v0) :: rest) = objAssign (setKey target k0 v0) rest := rfl
    rw [step, ih _ hnd.2]
    by_cases h : k0 = k
    · subst h
      rw [lookupKey_eq_none rest k0 hnd.1]
      simp [lookupKey, lookupKey_setKey_self]
    · simp [lookupKey, h, lookupKey_setKey_ne _ _ (fun he => h he.symm)]

theorem lookupKey_withDescr (d : Option String) (l : List (String × JsonValue)) {k : String}
    (h : k ≠ "description") : lookupKey (withDescr d l) k = lookupKey l k := by
  cases d with
  | none => rfl
  | some s =>
    by_cases hs : s = "" <;> simp [withDescr, hs, lookupKey_setKey_ne _ _ h]

theorem requiredOf_eq_claim (shape : List (String × TypeNode)) :
    requiredOf shape = claimRequiredNames shape := by
  induction shape with
  | nil => rfl
  | cons kv rest ih =>
    obtain ⟨k, v⟩ := kv
    cases v <;> simp [requiredOf, claimRequiredNames, isOptional, ih, List.filter]

/-- Claim C1: for every object-variant TypeNode, the converted wire node's
`required` entry is exactly the list of property names whose own node's
outermost discriminant is not `optional`/`nullable`/`default`, in
declaration order, and the `required` key is entirely absent when that
list is empty. -/
theorem claim_C1 (d : Option String) (unknownKeys : String) (shape : List (String × TypeNode)) :
    lookupKey (convert (TypeNode.zodObject d unknownKeys shape)) "required" =
      if claimRequiredNames shape = [] then none
      else some (JsonValue.arr ((claimRequiredNames shape).map JsonValue.str)) := by
  have hd : ("required" : String) ≠ "description" := by decide
  simp only [convert]
  rw [lookupKey_withDescr _ _ hd, requiredOf_eq_claim]
  by_cases hreq : claimRequiredNames shape = []
  · simp [objectSchema, hreq]
    split <;> try split
    all_goals simp [lookupKey_setKey_ne, lookupKey]
  · have hlen : 0 < (claimRequiredNames shape).length := List.length_pos.mpr hreq
    simp only [objectSchema, hreq, gt_iff_lt, hlen, if_true, if_false]
    split <;> try split
    all_goals simp [setKey, lookupKey, lookupKey_setKey_ne, lookupKey_setKey_self, hreq]

/-- Claim C2: an absent input, and an input lacking `_def`, both convert
to the unconstrained object node; a node whose discriminant is outside
the enumerated variants converts to the string fallback (decorated with
its description exactly like every other variant); no case fails. -/
theorem claim_C2 :
    convertInput none = [("type", JsonValue.str "object")]
    ∧ convert TypeNode.noDef = [("type", JsonValue.str "object")]
    ∧ (∀ name : String, convert (TypeNode.unrecognized none name) = [("type", JsonValue.str "string")])
    ∧ (∀ (d : Option String) (name : String),
        convert (TypeNode.unrecognized d name) = withDescr d [("type", JsonValue.str "string")]) :=
  ⟨rfl, rfl, fun _ => rfl, fun _ _ => rfl⟩

/-- Claim C8: wrapping a node in a bare `optional` wrapper and converting
yields exactly the conversion of the inner node; a wrapper that itself
carries a description only runs the conversion's uniform description step
on that same result. -/
theorem claim_C8 :
    (∀ x : TypeNode, convert (TypeNode.zodOptional none x) = convert x)
    ∧ (∀ (d : Option String) (x : TypeNode),
        convert (TypeNode.zodOptional d x) = withDescr d (convert x)) :=
  ⟨fun _ => rfl, fun _ _ => rfl⟩

theorem dropLast_drop_one (l : List Char) : (l.drop 1).dropLast = l.dropLast.drop 1 := by
  induction l with
  | nil => simp
  | cons c rest ih => cases rest <;> simp_all [List.dropLast]

theorem segmentName_eq_claim (p : String) : segmentName p = claimSegment p := by
  by_cases h : startsWithChar '\x7b' p
  · apply String.ext
    simp only [segmentName, claimSegment, h, if_true, claimCapitalize, String.data_append]
    have h2 : ((p.data.drop 2)).dropLast = ((p.data.drop 1).dropLast).drop 1 := by
      have h3 : p.data.drop 2 = (p.data.drop 1).drop 1 := by
        simp [List.drop_drop]
      rw [h3, dropLast_drop_one]
    rw [h2]
    generalize (p.data.drop 1).dropLast = m
    cases m <;> simp
  · apply String.ext
    simp only [segmentName, claimSegment, h, if_false, claimCapitalize, String.data_append]
    generalize p.data = l
    cases l <;> simp

/-- Claim C7: the operation identifier is the lowercased method followed
by the transform of the path in which each non-empty segment is
capitalized and each placeholder segment becomes `By` plus the
capitalized placeholder name; in particular `GET /users/{id}/role` yields
`getUsersByIdRole`. -/
theorem claim_C7 :
    (∀ method path : String,
      generateOperationId method path =
        jsToLower method ++ String.join
          ((((splitChar '/' path.data).map (fun l => (⟨l⟩ : String))).filter
            (fun p => p ≠ "")).map claimSegment))
    ∧ generateOperationId "GET" "/users/{id}/role" = "getUsersByIdRole" := by
  constructor
  · intro method path
    simp only [generateOperationId]
    congr 2
    exact List.map_congr_left (fun p _ => segmentName_eq_claim p)
  · decide

theorem lookupKey_operation_core (route : Route) {k : String}
    (hk1 : k ≠ "security") (hk2 : k ≠ "parameters") (hk3 : k ≠ "requestBody")
    (hk4 : k ≠ "responses") :
    lookupKey (generateOperation route) k = lookupKey (operationBase route) k := by
  simp only [generateOperation]
  rw [lookupKey_setKey_ne _ _ hk4]
  cases hb : route.bodySchema <;> simp only [hb] <;>
    split_ifs <;> simp [lookupKey_setKey_ne, hk1, hk2, hk3]

/-- Claim C3: a route declared with the auth flag and a body schema has,
before caller overrides, exactly the response keys success code, 401,
403, 422, then 404 exactly when a params schema is declared, then 500 —
with the success code 201 for POST, 204 for DELETE, 200 otherwise; and
every route's computed responses carry a 500 entry. -/
theorem claim_C3 :
    (∀ (method path : String) (cfg : RouteConfig) (b : TypeNode),
      (generateResponsesBase (createRoute method path
          {cfg with auth := true, body := some b})).map Prod.fst =
        [successCodeOf (createRoute method path {cfg with auth := true, body := some b}),
          "401", "403", "422"]
          ++ (if cfg.params.isSome then ["404"] else []) ++ ["500"]
      ∧ successCodeOf (createRoute method path {cfg with auth := true, body := some b}) =
          (if jsToLower method = "post" then "201"
           else if jsToLower method = "delete" then "204" else "200"))
    ∧ (∀ (method path : String) (cfg : RouteConfig),
        "500" ∈ (generateResponsesBase (createRoute method path cfg)).map Prod.fst) := by
  constructor
  · intro method path cfg b
    refine ⟨?_, rfl⟩
    simp only [generateResponsesBase, successCodeOf, createRoute]
    split_ifs <;> simp_all [setKey]
  · intro method path cfg
    exact mem_keys_setKey _ "500" _

/-- Claim C6: a caller-supplied response override at a status-code key
always ends up verbatim in the final response map at that key, whether or
not a computed entry exists there. -/
theorem claim_C6 (method path : String) (cfg : RouteConfig) (k : String) (v : JsonValue)
    (hnd : (cfg.responses.map Prod.fst).Nodup)
    (hov : lookupKey cfg.responses k = some v) :
    lookupKey (generateResponses (createRoute method path cfg)) k = some v := by
  have hcr : (createRoute method path cfg).customResponses = cfg.responses := rfl
  simp only [generateResponses, hcr]
  rw [lookupKey_objAssign _ _ _ hnd]
  simp [hov]

theorem claim_C6_witness :
    lookupKey (generateResponses (createRoute "GET" "/ping"
      {responses := [("422", JsonValue.str "custom")]})) "422" =
      some (JsonValue.str "custom") :=
  claim_C6 "GET" "/ping" {responses := [("422", JsonValue.str "custom")]} "422"
    (JsonValue.str "custom") (by simp) (by simp [lookupKey])

/-- Counterexample to claim C4 as stated: for the route `GET /health`
declared with neither summary nor description, the operation's
`description` is not the default summary string `GET /health` (it is the
undefined value, because `createRoute` derives the description from the
declared summary before the `'<METHOD> <path>'` default is computed). -/
theorem claim_C4_counterexample :
    lookupKey (generateOperation (createRoute "GET" "/health" {})) "description"
      ≠ some (JsonValue.str "GET /health") := by
  rw [lookupKey_operation_core _ (by decide) (by decide) (by decide) (by decide)]
  simp [operationBase, lookupKey, createRoute, jsOr]

/-- Claim C4 as amended: the operation's summary defaults to
`'<METHOD> <path>'` (method uppercased from its lowercased form) when the
route declares no summary; the description defaults to the declared
summary when a summary is given and no description is; but when neither
is declared the description field is left undefined (JS `undefined`,
modelled as `JsonValue.null`) instead of also receiving the generated
`'<METHOD> <path>'` string. -/
theorem claim_C4 :
    (∀ (method path : String) (cfg : RouteConfig),
      lookupKey (generateOperation (createRoute method path {cfg with summary := none}))
          "summary" =
        some (JsonValue.str (jsToUpper (jsToLower method) ++ " " ++ path)))
    ∧ (∀ (method path : String) (cfg : RouteConfig) (s : String),
      lookupKey (generateOperation (createRoute method path
          {cfg with summary := some s, description := none})) "description" =
        some (JsonValue.str s))
    ∧ (∀ (method path : String) (cfg : RouteConfig),
      lookupKey (generateOperation (createRoute method path
          {cfg with summary := none, description := none})) "description" =
        some JsonValue.null) := by
  refine ⟨?_, ?_, ?_⟩ <;> intro method path cfg
  · rw [lookupKey_operation_core _ (by decide) (by decide) (by decide) (by decide)]
    simp [operationBase, lookupKey, createRoute, jsOrDefault]
  · intro s
    rw [lookupKey_operation_core _ (by decide) (by decide) (by decide) (by decide)]
    simp [operationBase, lookupKey, createRoute, jsOr]
  · rw [lookupKey_operation_core _ (by decide) (by decide) (by decide) (by decide)]
    simp [operationBase, lookupKey, createRoute, jsOr]

theorem generateResponseSchema_eq_claim (h : ResponseHint) :
    generateResponseSchema h = claimEnvelope h := by
  cases h with
  | schema s =>
    by_cases hs : hasDef s <;> simp [generateResponseSchema, claimEnvelope, hs]
  | nonObject => rfl

/-- Claim C5: a DELETE route with no response hint computes a `204`
success response holding only a description (no `content` key), while a
DELETE route with a response hint computes a `204` carrying the enveloped
schema (`success` boolean plus `data` = converted hint, or an
unconstrained object for a non-type-node hint). -/
theorem claim_C5 :
    (∀ (path : String) (cfg : RouteConfig),
      lookupKey (generateResponsesBase (api.delete path {cfg with response := none})) "204" =
        some (JsonValue.obj [("description", JsonValue.str "Successfully deleted")]))
    ∧ (∀ (path : String) (cfg : RouteConfig) (h : ResponseHint),
      lookupKey (generateResponsesBase (api.delete path {cfg with response := some h})) "204" =
        some (JsonValue.obj
          [("description", JsonValue.str "Successful operation"),
           ("content", JsonValue.obj [("application/json", JsonValue.obj
             [("schema", claimEnvelope h)])])])) := by
  constructor
  · intro path cfg
    have hm : (api.delete path {cfg with response := none}).method = "delete" := by
      show jsToLower "DELETE" = "delete"
      decide
    have hresp : (api.delete path {cfg with response := none}).responseSchema = none := rfl
    simp only [generateResponsesBase, successCodeOf, hm, hresp]
    split_ifs <;> simp_all [setKey, lookupKey, lookupKey_setKey_ne, lookupKey_setKey_self]
  · intro path cfg h
    have hm : (api.delete path {cfg with response := some h}).method = "delete" := by
      show jsToLower "DELETE" = "delete"
      decide
    have hresp : (api.delete path {cfg with response := some h}).responseSchema = some h := rfl
    simp only [generateResponsesBase, successCodeOf, hm, hresp, generateResponseSchema_eq_claim]
    split_ifs <;> simp_all [setKey, lookupKey, lookupKey_setKey_ne, lookupKey_setKey_self]

/-- Claim C9: a params or query schema whose conversion has no
`properties` key contributes no parameters, and an operation whose total
parameter list is empty carries no `parameters` key at all. -/
theorem claim_C9 :
    (∀ (s : TypeNode) (loc : String),
      lookupKey (convert s) "properties" = none → generateParameters s loc = [])
    ∧ (∀ route : Route, routeParameters route = [] →
        lookupKey (generateOperation route) "parameters" = none) := by
  constructor
  · intro s loc h
    simp [generateParameters, h]
  · intro route h
    simp only [generateOperation, h]
    rw [lookupKey_setKey_ne _ _ (by decide : ("parameters" : String) ≠ "responses")]
    cases hb : route.bodySchema <;> simp only [hb] <;>
      split_ifs <;>
        simp_all [lookupKey_setKey_ne, lookupKey, operationBase]

theorem claim_C9_witness :
    generateParameters (TypeNode.zodString none []) "query" = []
    ∧ lookupKey (generateOperation (createRoute "GET" "/ping" {})) "parameters" = none := by
  constructor
  · exact claim_C9.1 (TypeNode.zodString none []) "query" rfl
  · exact claim_C9.2 (createRoute "GET" "/ping" {}) rfl

theorem lookupOp_docStep (acc : List (String × List (String × JsonValue))) (r : Route)
    (p m : String) :
    lookupOp (docStep acc r) p m =
      if r.path = p ∧ r.method = m then some (JsonValue.obj (generateOperation r))
      else lookupOp acc p m := by
  simp only [docStep, lookupOp]
  by_cases hp : r.path = p
  · subst hp
    rw [lookupKey_setKey_self]
    by_cases hm : r.method = m
    · subst hm
      simp [lookupKey_setKey_self]
    · rw [Option.some_bind]
      rw [lookupKey_setKey_ne _ _ (Ne.symm hm)]
      cases ha : lookupKey acc r.path <;> simp [ha, lookupKey, hm]
  · rw [lookupKey_setKey_ne _ _ (Ne.symm hp)]
    simp [hp]

theorem generateDocs_foldl (routes : List Route) :
    ∀ (acc : List (String × List (String × JsonValue))) (p m : String),
      lookupOp (routes.foldl docStep acc) p m =
        match lastMatching routes p m with
        | some r => some (JsonValue.obj (generateOperation r))
        | none => lookupOp acc p m := by
  induction routes with
  | nil => intro acc p m; rfl
  | cons r rest ih =>
    intro acc p m
    simp only [List.foldl_cons, lastMatching]
    rw [ih]
    cases h : lastMatching rest p m with
    | some r' => simp
    | none =>
      simp only
      rw [lookupOp_docStep]
      by_cases hc : r.path = p ∧ r.method = m <;> simp [hc]

/-- Claim C10: the generated paths mapping binds every (path, method)
pair to the operation of the latest route in the list matching that pair
(silently replacing earlier ones) and binds nothing else; and
`createRoute` stores the lowercased method, so two declarations whose
methods differ only in case collide on the same key. -/
theorem claim_C10 :
    (∀ (routes : List Route) (p m : String),
      lookupOp (generateDocs routes) p m =
        (lastMatching routes p m).map (fun r => JsonValue.obj (generateOperation r)))
    ∧ (∀ (method path : String) (cfg : RouteConfig),
        (createRoute method path cfg).method = jsToLower method) := by
  constructor
  · intro routes p m
    rw [generateDocs, generateDocs_foldl]
    cases lastMatching routes p m <;> simp [lookupOp, lookupKey]
  · intro method path cfg
    rfl
